import Mathlib

/-!
Verification development for the SAM frame-export web client
(`src/web_app/index.js`).  The module-level mutable state of the script and
its handlers are embedded as pure Lean functions on explicit state records;
pixel buffers are embedded as functions `ℕ → ℕ` (byte address to byte value)
and mask/score arrays as lists.  Numeric JS values are modelled by `ℚ`
(normalized coordinates, scores) and `ℕ` (bytes, indices); opaque objects
(image, processed image, embedding, blob) by `ℕ` tokens.
-/

namespace Sam

/-- Prompt point, from `getPoint` (index.js:322-337): normalized position
`[mouseX, mouseY]` plus label (1 = positive / left click, 0 = negative /
right click). -/
structure Pt where
  px : ℚ
  py : ℚ
  label : ℕ
  deriving DecidableEq

/-- `clamp(x, min = 0, max = 1) = Math.max(Math.min(x, max), min)`
(index.js:318-320). -/
def clamp (x mn mx : ℚ) : ℚ := max (min x mx) mn

/-- `getPoint(e)` (index.js:322-337): mouse coordinates relative to the
container's bounding box `(bl, bt, bw, bh)`, clamped into `[0,1]`; label 0
for right click (button 2), otherwise 1. -/
def getPoint (cx cy bl bt bw bh : ℚ) (button : ℕ) : Pt :=
  { px := clamp ((cx - bl) / bw) 0 1
    py := clamp ((cy - bt) / bh) 0 1
    label := if button = 2 then 0 else 1 }

/-- The module-level state variables of index.js:36-51 plus the two UI
observables the spec's invariants mention (`cutButton.disabled` and whether
the mask canvas is cleared).  `lastPoints = none` models the JS `null`. -/
structure App where
  isEncoding : Bool
  isDecoding : Bool
  decodePending : Bool
  lastPoints : Option (List Pt)
  isMultiMaskMode : Bool
  imageInput : Option ℕ
  imageProcessed : Option ℕ
  imageEmbeddings : Option ℕ
  cutDisabled : Bool
  overlayCleared : Bool
  deriving DecidableEq

/-- `clearPointsAndMask()` (index.js:161-174): exits multi-mask mode, nulls
the point list, disables the cut button, clears the mask canvas. -/
def clearPointsAndMask (s : App) : App :=
  { s with isMultiMaskMode := false, lastPoints := none, cutDisabled := true,
           overlayCleared := true }

/-- `resetImageState()` (index.js:176-193): nulls image/embedding state and
the busy flags, then calls `clearPointsAndMask`, then disables the cut
button again. -/
def resetImageState (s : App) : App :=
  let s1 := { s with imageInput := none, imageProcessed := none,
                     imageEmbeddings := none, isEncoding := false,
                     isDecoding := false, decodePending := false }
  let s2 := clearPointsAndMask s1
  { s2 with cutDisabled := true }

/-- `encode(url)` (index.js:202-220), successful run viewed as one atomic
update (its guard, all its awaits completing, and the trailing
`isEncoding = false`).  It sets the image, disables the cut button, and
replaces the processed image and the embedding.  It does NOT touch
`lastPoints`, `isMultiMaskMode` or the mask canvas. -/
def encodeOk (u em pr : ℕ) (s : App) : App :=
  if s.isEncoding then s
  else
    { s with isEncoding := false, imageInput := some u, cutDisabled := true,
             imageProcessed := some pr, imageEmbeddings := some em }

/-- `encode(url)` whose `model.get_image_embeddings` call rejects
(index.js:216).  There is no try/catch in `encode`, so the lines after the
failing await never run: `imageInput`/`imageProcessed` were already
replaced, `imageEmbeddings` keeps its prior value, and `isEncoding`
(set true at index.js:204) is never reset. -/
def encodeFail (u pr : ℕ) (s : App) : App :=
  if s.isEncoding then s
  else
    { s with isEncoding := true, imageInput := some u, cutDisabled := true,
             imageProcessed := some pr }

/-- `loadFromAviUtl2()` (index.js:222-254), successful run: guarded by
`isEncoding || isDecoding`, then `resetImageState()` followed by
`encode(objectUrl)`. -/
def loadFromAviUtl2Ok (u em pr : ℕ) (s : App) : App :=
  if s.isEncoding || s.isDecoding then s
  else encodeOk u em pr (resetImageState s)

/-- The `mousedown` handler (index.js:291-315): ignores buttons other than
0 and 2 and runs only once an embedding exists; on first click it enters
multi-mask mode with a fresh empty list and enables the cut button; then it
appends `getPoint(e)` (and triggers `decode()`, modelled separately). -/
def mousedown (b : ℕ) (cx cy bl bt bw bh : ℚ) (s : App) : App :=
  if b ≠ 0 ∧ b ≠ 2 then s
  else if s.imageEmbeddings = none then s
  else
    let s1 :=
      if s.isMultiMaskMode then s
      else { s with lastPoints := some [], isMultiMaskMode := true,
                    cutDisabled := false }
    { s1 with
        lastPoints := some (s1.lastPoints.getD [] ++ [getPoint cx cy bl bt bw bh b]) }

/-- The `mousemove` handler (index.js:343-352): ignored before an embedding
exists or while in multi-mask mode; otherwise replaces the whole point list
with the single hover point (a mousemove event has button 0, so label 1). -/
def mousemove (cx cy bl bt bw bh : ℚ) (s : App) : App :=
  if s.imageEmbeddings = none ∨ s.isMultiMaskMode then s
  else { s with lastPoints := some [getPoint cx cy bl bt bw bh 0] }

/-- User / network events driving the session state. -/
inductive AppEv where
  | mdown (b : ℕ) (cx cy bl bt bw bh : ℚ)
  | mmove (cx cy bl bt bw bh : ℚ)
  | clear
  | reset
  | encOk (u em pr : ℕ)
  | encFail (u pr : ℕ)
  | loadOk (u em pr : ℕ)

/-- Dispatch one event to the corresponding handler. -/
def appStep (s : App) : AppEv → App
  | .mdown b cx cy bl bt bw bh => mousedown b cx cy bl bt bw bh s
  | .mmove cx cy bl bt bw bh => mousemove cx cy bl bt bw bh s
  | .clear => clearPointsAndMask s
  | .reset => resetImageState s
  | .encOk u em pr => encodeOk u em pr s
  | .encFail u pr => encodeFail u pr s
  | .loadOk u em pr => loadFromAviUtl2Ok u em pr s

/-- Run a sequence of events. -/
def runApp (s : App) (evs : List AppEv) : App := evs.foldl appStep s

/-- Initial module state (index.js:36-51): all nulls, all flags false, cut
button disabled, empty mask canvas. -/
def appInit : App :=
  { isEncoding := false, isDecoding := false, decodePending := false,
    lastPoints := none, isMultiMaskMode := false, imageInput := none,
    imageProcessed := none, imageEmbeddings := none, cutDisabled := true,
    overlayCleared := true }

/-- Both normalized coordinates of a point lie in `[0, 1]`. -/
def ptIn01 (p : Pt) : Prop := 0 ≤ p.px ∧ p.px ≤ 1 ∧ 0 ≤ p.py ∧ p.py ≤ 1

instance (p : Pt) : Decidable (ptIn01 p) := by unfold ptIn01; infer_instance

/-!
Decode coordinator (`decode()`, index.js:78-120).  The point state that
`decode` reads from `lastPoints` at dispatch time is abstracted to an `ℕ`
token.  `inflight` records the snapshot passed to the in-flight inference
call (`none` when no call is in flight) and `inflightCount` instruments how
many inference calls are currently in flight; `rendered` records which point
snapshot the overlay currently shows.
-/

/-- Coordinator state: `isDecoding`/`decodePending` are the two flags of
index.js:38-39; `lastPoints` the current point store (token). -/
structure Coord where
  isDecoding : Bool
  decodePending : Bool
  lastPoints : ℕ
  inflight : Option ℕ
  rendered : Option ℕ
  inflightCount : ℕ
  deriving DecidableEq

/-- The dispatch half of `decode()` (index.js:84-102): set `isDecoding`,
read the CURRENT `lastPoints`, and start the single inference call with
that snapshot. -/
def dispatch (s : Coord) : Coord :=
  { s with isDecoding := true, inflight := some s.lastPoints,
           inflightCount := s.inflightCount + 1 }

/-- `decode()` entry (index.js:80-84): while a decode is in flight the call
only sets `decodePending` and returns; otherwise it dispatches. -/
def requestDecode (s : Coord) : Coord :=
  if s.isDecoding then { s with decodePending := true } else dispatch s

/-- The in-flight inference call resolves (index.js:98-119): `isDecoding`
is cleared, the overlay is rendered from the snapshot the call was
dispatched with, and if `decodePending` was set it is cleared and `decode()`
is re-entered (which re-reads `lastPoints` at this new dispatch). -/
def completeOk (s : Coord) : Coord :=
  match s.inflight with
  | none => s
  | some p =>
    let s1 := { s with isDecoding := false, inflight := none,
                       inflightCount := s.inflightCount - 1,
                       rendered := some p }
    if s1.decodePending then requestDecode { s1 with decodePending := false }
    else s1

/-- The in-flight inference call rejects.  `decode()` has no try/catch
(index.js:78-120), so the async function aborts at the failing await:
`isDecoding` is NOT cleared, `decodePending` is not consumed, no render
happens. -/
def completeFail (s : Coord) : Coord :=
  match s.inflight with
  | none => s
  | some _ => { s with inflight := none, inflightCount := s.inflightCount - 1 }

/-- Coordinator events: a handler mutates the point store and calls
`decode()` (`req`), or the in-flight inference call resolves or rejects. -/
inductive CEv where
  | req (pts : ℕ)
  | ok
  | fail

/-- One coordinator step. -/
def cstep (s : Coord) : CEv → Coord
  | .req p => requestDecode { s with lastPoints := p }
  | .ok => completeOk s
  | .fail => completeFail s

/-- Run a sequence of coordinator events. -/
def runC (s : Coord) (evs : List CEv) : Coord := evs.foldl cstep s

/-- Initial coordinator state (index.js:38-40). -/
def initC : Coord :=
  { isDecoding := false, decodePending := false, lastPoints := 0,
    inflight := none, rendered := none, inflightCount := 0 }

/-- A burst of `requestDecode()` calls, each preceded by the caller's
point-store mutation. -/
def applyReqs (s : Coord) (ps : List ℕ) : Coord :=
  ps.foldl (fun t p => cstep t (CEv.req p)) s

/-!
Mask selection (`updateMaskOverlay`, index.js:135-143): linear scan over the
scores with strict `>`, keeping the first index on ties.
-/

/-- The loop body of index.js:138-142:
`if (scores[i] > scores[bestIndex]) bestIndex = i`. -/
def selStep (scores : List ℚ) (b i : ℕ) : ℕ :=
  if scores.getD i 0 > scores.getD b 0 then i else b

/-- `bestIndex` from index.js:137-142: `let bestIndex = 0; for (let i = 1;
i < numMasks; ++i) if (scores[i] > scores[bestIndex]) bestIndex = i;`. -/
def bestIndex (scores : List ℚ) : ℕ :=
  (List.range' 1 (scores.length - 1)).foldl (selStep scores) 0

/-!
Overlay render (`updateMaskOverlay`, index.js:145-158).  The buffer is a
byte map `ℕ → ℕ`; `createImageData` yields an all-zero buffer of length
`4 * w * h`.  A JS typed-array store out of range is a silent no-op, hence
the bound check in `writeByte`.  `mask.get?` models the JS read
`mask.data[numMasks * i + bestIndex]`, with `none` for an out-of-range read
(JS `undefined`, which is not `=== 1`).
-/

/-- Bounded byte store into a buffer of length `len`. -/
def writeByte (len : ℕ) (buf : ℕ → ℕ) (a v : ℕ) : ℕ → ℕ :=
  if a < len then fun b => if b = a then v else buf b else buf

/-- One iteration of the fill loop (index.js:147-155): if the chosen
candidate's label at interleaved index `numMasks * i + bestIdx` is 1, write
the highlight colour `(0, 114, 189, 255)` at byte offset `4 * i`. -/
def overlayStep (mask : List ℕ) (numMasks bestIdx len : ℕ)
    (buf : ℕ → ℕ) (i : ℕ) : ℕ → ℕ :=
  if mask.get? (numMasks * i + bestIdx) = some 1 then
    writeByte len
      (writeByte len
        (writeByte len
          (writeByte len buf (4 * i) 0)
          (4 * i + 1) 114)
        (4 * i + 2) 189)
      (4 * i + 3) 255
  else buf

/-- The whole fill loop: `for (let i = 0; i < pixelData.length; ++i)` —
note the source iterates up to the BYTE length `4 * w * h`, not the pixel
count; the extra iterations read out of range and never write. -/
def updateMaskOverlayBuf (mask : List ℕ) (numMasks w h bestIdx : ℕ) : ℕ → ℕ :=
  (List.range (4 * (w * h))).foldl
    (overlayStep mask numMasks bestIdx (4 * (w * h))) (fun _ => 0)

/-- Component `k` (0..3) of the highlight colour written by the loop. -/
def colorVal : ℕ → ℕ
  | 0 => 0
  | 1 => 114
  | 2 => 189
  | _ => 255

/-!
Cut extraction (cut-button handler, index.js:355-379).  The overlay buffer
(RGBA, `4 * w * h` bytes, read back with `getImageData`) is mutated in
place: for each pixel with nonzero alpha the three colour bytes are copied
from the source image (RGB, 3 bytes per pixel).
-/

/-- Unbounded pointwise update (all stores in this loop are in range:
`i < w * h` gives byte offsets `< 4 * w * h`). -/
def upd (buf : ℕ → ℕ) (a v : ℕ) : ℕ → ℕ :=
  fun b => if b = a then v else buf b

/-- One iteration of the copy loop (index.js:368-378): if the alpha byte at
`4 * i + 3` is positive, copy image bytes `3 * i + j` into buffer bytes
`4 * i + j` for `j < 3`. -/
def cutStep (image : ℕ → ℕ) (buf : ℕ → ℕ) (i : ℕ) : ℕ → ℕ :=
  if 0 < buf (4 * i + 3) then
    upd (upd (upd buf (4 * i) (image (3 * i)))
          (4 * i + 1) (image (3 * i + 1)))
      (4 * i + 2) (image (3 * i + 2))
  else buf

/-- The whole copy loop over the `w * h` pixels, starting from the overlay
buffer's contents. -/
def cutExtract (w h : ℕ) (overlay image : ℕ → ℕ) : ℕ → ℕ :=
  (List.range (w * h)).foldl (cutStep image) overlay

/-!
Export (cut-button handler, index.js:381-408): one PNG blob is made from
the cut canvas; sink (A) is the local download (runs unconditionally,
before the upload), sink (B) is the POST to the AviUtl2 mask URL whose
failure is caught and only reported.
-/

/-- Outcome of one export: what each sink received (blob content token)
and the final status text. -/
structure ExportOut where
  localBytes : Option ℕ
  uploadedBytes : Option ℕ
  statusText : String
  deriving DecidableEq

/-- The export tail of the cut handler: the single blob goes to the local
download first, then the upload is attempted; on upload failure the error
is caught and reported, the download is not undone. -/
def cutExport (blob : ℕ) (uploadOk : Bool) : ExportOut :=
  let localBytes := some blob
  if uploadOk then
    { localBytes := localBytes, uploadedBytes := some blob,
      statusText := "Mask sent to AviUtl2" }
  else
    { localBytes := localBytes, uploadedBytes := none,
      statusText := "Failed to send mask to AviUtl2" }

/-- Coordinator well-formedness: the instrumented in-flight count is 1
exactly when a call is in flight, and a call can only be in flight while
`isDecoding` is set. -/
def cInv (s : Coord) : Prop :=
  s.inflightCount = (if s.inflight.isSome then 1 else 0) ∧
  (s.inflight.isSome = true → s.isDecoding = true)

/-- All points currently held in the point store are in `[0,1]²`. -/
def appPtsInv (s : App) : Prop := ∀ p ∈ s.lastPoints.getD [], ptIn01 p

/-- A session with an active multi-point session, a displayed overlay and a
prior embedding, about to load a fresh image through plain `encode`. -/
def cexApp3 : App :=
  { isEncoding := false, isDecoding := false, decodePending := false,
    lastPoints := some [⟨1/2, 1/2, 1⟩], isMultiMaskMode := true,
    imageInput := some 0, imageProcessed := some 0, imageEmbeddings := some 0,
    cutDisabled := false, overlayCleared := false }

/-- An idle session holding the embedding of a previously loaded image. -/
def cexApp8 : App :=
  { isEncoding := false, isDecoding := false, decodePending := false,
    lastPoints := none, isMultiMaskMode := false, imageInput := some 0,
    imageProcessed := some 0, imageEmbeddings := some 7, cutDisabled := true,
    overlayCleared := true }

/-- A freshly encoded session still in hover mode. -/
def cexApp9 : App := { appInit with imageEmbeddings := some 0 }

/-- Concrete one-pixel overlay buffer: alpha byte 255, colour bytes 0. -/
def ovW : ℕ → ℕ := fun a => if a = 3 then 255 else 0

/-- Concrete one-pixel RGB source image with colour `(10, 20, 30)`. -/
def imW : ℕ → ℕ :=
  fun a => if a = 0 then 10 else if a = 1 then 20 else if a = 2 then 30 else 0

/-! ## Helper lemmas -/

lemma clamp01 (x : ℚ) : 0 ≤ clamp x 0 1 ∧ clamp x 0 1 ≤ 1 :=
  ⟨le_max_right _ _, max_le (min_le_right _ _) zero_le_one⟩

lemma getPoint_in01 (cx cy bl bt bw bh : ℚ) (b : ℕ) :
    ptIn01 (getPoint cx cy bl bt bw bh b) :=
  ⟨(clamp01 _).1, (clamp01 _).2, (clamp01 _).1, (clamp01 _).2⟩

lemma appStep_ptsInv (s : App) (e : AppEv) (h : appPtsInv s) :
    appPtsInv (appStep s e) := by
  cases e with
  | mdown b cx cy bl bt bw bh =>
    intro p hp
    simp only [appStep, mousedown] at hp
    by_cases h1 : b ≠ 0 ∧ b ≠ 2
    · rw [if_pos h1] at hp; exact h p hp
    rw [if_neg h1] at hp
    by_cases h2 : s.imageEmbeddings = none
    · rw [if_pos h2] at hp; exact h p hp
    rw [if_neg h2] at hp
    by_cases h3 : s.isMultiMaskMode
    · rw [if_pos h3] at hp
      simp only [Option.getD_some] at hp
      rcases List.mem_append.mp hp with h4 | h4
      · exact h p h4
      · rcases List.mem_singleton.mp h4 with rfl
        exact getPoint_in01 cx cy bl bt bw bh b
    · rw [if_neg h3] at hp
      simp only [Option.getD_some, List.nil_append] at hp
      rcases List.mem_singleton.mp hp with rfl
      exact getPoint_in01 cx cy bl bt bw bh b
  | mmove cx cy bl bt bw bh =>
    intro p hp
    simp only [appStep, mousemove] at hp
    by_cases h1 : s.imageEmbeddings = none ∨ s.isMultiMaskMode
    · rw [if_pos h1] at hp; exact h p hp
    · rw [if_neg h1] at hp
      simp only [Option.getD_some] at hp
      rcases List.mem_singleton.mp hp with rfl
      exact getPoint_in01 cx cy bl bt bw bh 0
  | clear =>
    intro p hp
    simp [appStep, clearPointsAndMask] at hp
  | reset =>
    intro p hp
    simp [appStep, resetImageState, clearPointsAndMask] at hp
  | encOk u em pr =>
    intro p hp
    simp only [appStep, encodeOk] at hp
    by_cases h1 : s.isEncoding
    · rw [if_pos h1] at hp; exact h p hp
    · rw [if_neg h1] at hp; exact h p hp
  | encFail u pr =>
    intro p hp
    simp only [appStep, encodeFail] at hp
    by_cases h1 : s.isEncoding
    · rw [if_pos h1] at hp; exact h p hp
    · rw [if_neg h1] at hp; exact h p hp
  | loadOk u em pr =>
    intro p hp
    simp only [appStep, loadFromAviUtl2Ok] at hp
    by_cases h1 : s.isEncoding || s.isDecoding
    · rw [if_pos h1] at hp; exact h p hp
    · rw [if_neg h1] at hp
      simp [encodeOk, resetImageState, clearPointsAndMask] at hp

lemma runApp_ptsInv (evs : List AppEv) :
    ∀ s : App, appPtsInv s → appPtsInv (runApp s evs) := by
  induction evs with
  | nil => intro s h; exact h
  | cons e rest ih =>
    intro s h
    exact ih (appStep s e) (appStep_ptsInv s e h)

lemma bestAux (scores : List ℚ) :
    ∀ (n s b : ℕ), b < s →
      (∀ j, j < s → scores.getD j 0 ≤ scores.getD b 0) →
      (∀ j, j < b → scores.getD j 0 < scores.getD b 0) →
      (List.range' s n).foldl (selStep scores) b < s + n ∧
      (∀ j, j < s + n →
        scores.getD j 0 ≤ scores.getD ((List.range' s n).foldl (selStep scores) b) 0) ∧
      (∀ j, j < (List.range' s n).foldl (selStep scores) b →
        scores.getD j 0 < scores.getD ((List.range' s n).foldl (selStep scores) b) 0) := by
  intro n
  induction n with
  | zero =>
    intro s b hb hle hlt
    refine ⟨?_, ?_, ?_⟩ <;>
      simp only [List.range'_zero, List.foldl_nil, Nat.add_zero]
    · exact hb
    · exact hle
    · exact hlt
  | succ n ih =>
    intro s b hb hle hlt
    rw [List.range'_succ]
    simp only [List.foldl_cons]
    by_cases hgt : scores.getD s 0 > scores.getD b 0
    · have hsel : selStep scores b s = s := by unfold selStep; rw [if_pos hgt]
      rw [hsel]
      obtain ⟨h1, h2, h3⟩ := ih (s + 1) s (by omega)
        (fun j hj => by
          rcases Nat.lt_succ_iff_lt_or_eq.mp hj with hj' | hj'
          · exact le_trans (hle j hj') (le_of_lt hgt)
          · subst hj'; exact le_refl _)
        (fun j hj => lt_of_le_of_lt (hle j hj) hgt)
      exact ⟨by omega, fun j hj => h2 j (by omega), h3⟩
    · have hsel : selStep scores b s = b := by unfold selStep; rw [if_neg hgt]
      rw [hsel]
      obtain ⟨h1, h2, h3⟩ := ih (s + 1) b (by omega)
        (fun j hj => by
          rcases Nat.lt_succ_iff_lt_or_eq.mp hj with hj' | hj'
          · exact hle j hj'
          · subst hj'; exact le_of_not_lt hgt)
        hlt
      exact ⟨by omega, fun j hj => h2 j (by omega), h3⟩

lemma cInv_step (s : Coord) (e : CEv) (h : cInv s) : cInv (cstep s e) := by
  obtain ⟨h1, h2⟩ := h
  unfold cInv
  cases e with
  | req p =>
    by_cases hd : s.isDecoding = true
    · constructor
      · simpa [cstep, requestDecode, hd] using h1
      · intro _
        simp [cstep, requestDecode, hd]
    · have hb : s.isDecoding = false := by
        cases hde : s.isDecoding with
        | false => rfl
        | true => exact absurd hde hd
      have hnone : s.inflight = none := by
        cases hin : s.inflight with
        | none => rfl
        | some v => exact absurd (h2 (by simp [hin])) hd
      have hc0 : s.inflightCount = 0 := by simpa [hnone] using h1
      constructor
      · simp [cstep, requestDecode, dispatch, hb, hc0]
      · intro _
        simp [cstep, requestDecode, dispatch, hb]
  | ok =>
    cases hin : s.inflight with
    | none =>
      constructor
      · simpa [cstep, completeOk, hin] using h1
      · intro hi
        simp [cstep, completeOk, hin] at hi
    | some p =>
      have hc1 : s.inflightCount = 1 := by simpa [hin] using h1
      by_cases hp : s.decodePending = true
      · constructor
        · simp [cstep, completeOk, hin, hp, requestDecode, dispatch, hc1]
        · intro _
          simp [cstep, completeOk, hin, hp, requestDecode, dispatch]
      · have hp' : s.decodePending = false := by
          cases hde : s.decodePending with
          | false => rfl
          | true => exact absurd hde hp
        constructor
        · simp [cstep, completeOk, hin, hp', hc1]
        · intro hi
          simp [cstep, completeOk, hin, hp'] at hi
  | fail =>
    cases hin : s.inflight with
    | none =>
      constructor
      · simpa [cstep, completeFail, hin] using h1
      · intro hi
        simp [cstep, completeFail, hin] at hi
    | some p =>
      have hc1 : s.inflightCount = 1 := by simpa [hin] using h1
      constructor
      · simp [cstep, completeFail, hin, hc1]
      · intro hi
        simp [cstep, completeFail, hin] at hi

lemma cInv_run (evs : List CEv) : ∀ s : Coord, cInv s → cInv (runC s evs) := by
  induction evs with
  | nil => intro s h; exact h
  | cons e rest ih =>
    intro s h
    exact ih (cstep s e) (cInv_step s e h)

lemma applyReqs_busy :
    ∀ (ps : List ℕ) (s : Coord), s.isDecoding = true → ∀ (hne : ps ≠ []),
      applyReqs s ps
        = { s with lastPoints := ps.getLast hne, decodePending := true } := by
  intro ps
  induction ps with
  | nil => intro s hd hne; exact absurd rfl hne
  | cons p rest ih =>
    intro s hd hne
    cases rest with
    | nil =>
      simp [applyReqs, cstep, requestDecode, hd, List.getLast]
    | cons r rs =>
      have hstep : cstep s (CEv.req p)
          = { s with lastPoints := p, decodePending := true } := by
        simp [cstep, requestDecode, hd]
      have hfold : applyReqs s (p :: r :: rs)
          = applyReqs (cstep s (CEv.req p)) (r :: rs) := by
        simp [applyReqs]
      rw [hfold, hstep,
        ih { s with lastPoints := p, decodePending := true } hd (by simp)]
      simp [List.getLast_cons]

lemma writeByte_at (len : ℕ) (buf : ℕ → ℕ) (a v : ℕ) (h : a < len) :
    writeByte len buf a v a = v := by
  simp [writeByte, h]

lemma writeByte_ne (len : ℕ) (buf : ℕ → ℕ) (a v b : ℕ) (h : b ≠ a) :
    writeByte len buf a v b = buf b := by
  unfold writeByte
  split <;> simp [h]

lemma overlayChain_at (len : ℕ) (buf : ℕ → ℕ) (n k : ℕ) (hk : k < 4)
    (hlen : 4 * n + 3 < len) :
    (writeByte len
      (writeByte len
        (writeByte len
          (writeByte len buf (4 * n) 0)
          (4 * n + 1) 114)
        (4 * n + 2) 189)
      (4 * n + 3) 255) (4 * n + k) = colorVal k := by
  interval_cases k
  · rw [writeByte_ne _ _ _ _ _ (by omega), writeByte_ne _ _ _ _ _ (by omega),
      writeByte_ne _ _ _ _ _ (by omega)]
    have h0 : 4 * n + 0 = 4 * n := by omega
    rw [h0, writeByte_at _ _ _ _ (by omega)]
    rfl
  · rw [writeByte_ne _ _ _ _ _ (by omega), writeByte_ne _ _ _ _ _ (by omega),
      writeByte_at _ _ _ _ (by omega)]
    rfl
  · rw [writeByte_ne _ _ _ _ _ (by omega), writeByte_at _ _ _ _ (by omega)]
    rfl
  · rw [writeByte_at _ _ _ _ (by omega)]
    rfl

lemma overlayChain_other (len : ℕ) (buf : ℕ → ℕ) (n a : ℕ)
    (ha : ∀ j, j < 4 → a ≠ 4 * n + j) :
    (writeByte len
      (writeByte len
        (writeByte len
          (writeByte len buf (4 * n) 0)
          (4 * n + 1) 114)
        (4 * n + 2) 189)
      (4 * n + 3) 255) a = buf a := by
  rw [writeByte_ne _ _ _ _ _ (ha 3 (by omega)),
    writeByte_ne _ _ _ _ _ (ha 2 (by omega)),
    writeByte_ne _ _ _ _ _ (ha 1 (by omega)),
    writeByte_ne _ _ _ _ _ (by have := ha 0 (by omega); omega)]

lemma overlayFold_at (mask : List ℕ) (numMasks w h bestIdx : ℕ)
    (hm : mask.length = numMasks * (w * h)) (_hb : bestIdx < numMasks)
    (p k : ℕ) (hk : k < 4) :
    ∀ (n : ℕ) (buf : ℕ → ℕ),
      ((List.range n).foldl (overlayStep mask numMasks bestIdx (4 * (w * h))) buf)
          (4 * p + k)
        = if p < n ∧ mask.get? (numMasks * p + bestIdx) = some 1
          then colorVal k else buf (4 * p + k) := by
  intro n
  induction n with
  | zero =>
    intro buf
    rw [if_neg (fun hc => absurd hc.1 (Nat.not_lt_zero p))]
    rfl
  | succ n ih =>
    intro buf
    rw [List.range_succ, List.foldl_append]
    simp only [List.foldl_cons, List.foldl_nil]
    simp only [overlayStep]
    by_cases hg : mask.get? (numMasks * n + bestIdx) = some 1
    · have hlen : numMasks * n + bestIdx < mask.length := by
        by_contra hcon
        rw [List.get?_eq_none.mpr (by omega)] at hg
        exact Option.noConfusion hg
      have hnlt : n < w * h := by
        rw [hm] at hlen
        by_contra hcon
        have h2 : numMasks * (w * h) ≤ numMasks * n :=
          Nat.mul_le_mul_left _ (by omega)
        omega
      have hlen3 : 4 * n + 3 < 4 * (w * h) := by omega
      rw [if_pos hg]
      by_cases hpn : p = n
      · subst hpn
        rw [overlayChain_at _ _ _ _ hk hlen3, if_pos ⟨by omega, hg⟩]
      · rw [overlayChain_other _ _ _ _ (fun j hj => by omega), ih buf]
        by_cases hpc : p < n ∧ mask.get? (numMasks * p + bestIdx) = some 1
        · rw [if_pos hpc, if_pos ⟨by omega, hpc.2⟩]
        · rw [if_neg hpc, if_neg (fun hc => hpc ⟨by omega, hc.2⟩)]
    · rw [if_neg hg, ih buf]
      by_cases hpn : p = n
      · subst hpn
        rw [if_neg (fun hc => absurd hc.1 (by omega)),
          if_neg (fun hc => hg hc.2)]
      · by_cases hpc : p < n ∧ mask.get? (numMasks * p + bestIdx) = some 1
        · rw [if_pos hpc, if_pos ⟨by omega, hpc.2⟩]
        · rw [if_neg hpc, if_neg (fun hc => hpc ⟨by omega, hc.2⟩)]

lemma upd_at (buf : ℕ → ℕ) (a v : ℕ) : upd buf a v a = v := by
  simp [upd]

lemma upd_ne (buf : ℕ → ℕ) (a v b : ℕ) (h : b ≠ a) : upd buf a v b = buf b := by
  simp [upd, h]

lemma cutChain_at (buf image : ℕ → ℕ) (n k : ℕ) (hk : k < 3) :
    (upd (upd (upd buf (4 * n) (image (3 * n)))
        (4 * n + 1) (image (3 * n + 1)))
      (4 * n + 2) (image (3 * n + 2))) (4 * n + k) = image (3 * n + k) := by
  interval_cases k
  · rw [upd_ne _ _ _ _ (by omega), upd_ne _ _ _ _ (by omega)]
    have h4 : 4 * n + 0 = 4 * n := by omega
    have h3 : 3 * n + 0 = 3 * n := by omega
    rw [h4, h3, upd_at]
  · rw [upd_ne _ _ _ _ (by omega), upd_at]
  · rw [upd_at]

lemma cutChain_other (buf image : ℕ → ℕ) (n a : ℕ)
    (ha : ∀ j, j < 3 → a ≠ 4 * n + j) :
    (upd (upd (upd buf (4 * n) (image (3 * n)))
        (4 * n + 1) (image (3 * n + 1)))
      (4 * n + 2) (image (3 * n + 2))) a = buf a := by
  rw [upd_ne _ _ _ _ (ha 2 (by omega)), upd_ne _ _ _ _ (ha 1 (by omega)),
    upd_ne _ _ _ _ (by have := ha 0 (by omega); omega)]

lemma cutFold_alpha (image : ℕ → ℕ) :
    ∀ (n : ℕ) (buf : ℕ → ℕ) (a : ℕ), a % 4 = 3 →
      ((List.range n).foldl (cutStep image) buf) a = buf a := by
  intro n
  induction n with
  | zero =>
    intro buf a ha
    rfl
  | succ n ih =>
    intro buf a ha
    rw [List.range_succ, List.foldl_append]
    simp only [List.foldl_cons, List.foldl_nil]
    simp only [cutStep]
    split
    · rw [cutChain_other _ _ _ _ (fun j hj => by omega)]
      exact ih buf a ha
    · exact ih buf a ha

lemma cutFold_at (image overlay : ℕ → ℕ) (p k : ℕ) (hk : k < 3) :
    ∀ (n : ℕ),
      ((List.range n).foldl (cutStep image) overlay) (4 * p + k)
        = if p < n ∧ 0 < overlay (4 * p + 3) then image (3 * p + k)
          else overlay (4 * p + k) := by
  intro n
  induction n with
  | zero =>
    rw [if_neg (fun hc => absurd hc.1 (Nat.not_lt_zero p))]
    rfl
  | succ n ih =>
    rw [List.range_succ, List.foldl_append]
    simp only [List.foldl_cons, List.foldl_nil]
    have halpha : ((List.range n).foldl (cutStep image) overlay) (4 * n + 3)
        = overlay (4 * n + 3) :=
      cutFold_alpha image n overlay (4 * n + 3) (by omega)
    simp only [cutStep, halpha]
    by_cases hg : 0 < overlay (4 * n + 3)
    · rw [if_pos hg]
      by_cases hpn : p = n
      · subst hpn
        rw [cutChain_at _ _ _ _ hk, if_pos ⟨by omega, hg⟩]
      · rw [cutChain_other _ _ _ _ (fun j hj => by omega), ih]
        by_cases hpc : p < n ∧ 0 < overlay (4 * p + 3)
        · rw [if_pos hpc, if_pos ⟨by omega, hpc.2⟩]
        · rw [if_neg hpc, if_neg (fun hc => hpc ⟨by omega, hc.2⟩)]
    · rw [if_neg hg, ih]
      by_cases hpn : p = n
      · subst hpn
        rw [if_neg (fun hc => absurd hc.1 (by omega)),
          if_neg (fun hc => hg hc.2)]
      · by_cases hpc : p < n ∧ 0 < overlay (4 * p + 3)
        · rw [if_pos hpc, if_pos ⟨by omega, hpc.2⟩]
        · rw [if_neg hpc, if_neg (fun hc => hpc ⟨by omega, hc.2⟩)]

/-! ## Claims -/

/-- C1: single-flight coalescing of decode requests.  (a) Along every event
trace from the initial state, at most one inference call is in flight at
any instant.  (b) A `decode()` call arriving while `isDecoding` is true
only records the new point state and sets `decodePending`.  (c) For any
busy state and any nonempty burst of `requestDecode()` calls issued during
the in-flight decode, draining the pipeline (the completion of the current
call plus the single coalesced rerun, which re-reads the point store at its
dispatch) leaves the rendered mask corresponding to the point state of the
last call of the burst, with the coordinator idle. -/
theorem C1_single_flight_coalescing :
    (∀ evs : List CEv, (runC initC evs).inflightCount ≤ 1) ∧
    (∀ (s : Coord) (p : ℕ), s.isDecoding = true →
      cstep s (CEv.req p) = { s with lastPoints := p, decodePending := true }) ∧
    (∀ (s : Coord) (q : ℕ) (ps : List ℕ) (hne : ps ≠ []),
      s.isDecoding = true → s.inflight = some q →
      (applyReqs s ps).inflight = s.inflight ∧
      (completeOk (completeOk (applyReqs s ps))).rendered = some (ps.getLast hne) ∧
      (completeOk (completeOk (applyReqs s ps))).isDecoding = false ∧
      (completeOk (completeOk (applyReqs s ps))).decodePending = false) := by
  refine ⟨?_, ?_, ?_⟩
  · intro evs
    obtain ⟨h1, _⟩ := cInv_run evs initC (by constructor <;> simp [initC])
    rw [h1]
    split <;> omega
  · intro s p hd
    simp [cstep, requestDecode, hd]
  · intro s q ps hne hd hin
    rw [applyReqs_busy ps s hd hne]
    refine ⟨rfl, ?_, ?_, ?_⟩ <;>
      simp [completeOk, hin, requestDecode, dispatch]

/-- C1 witness: from the busy state reached by one dispatched request, a
burst of two further requests drains to the mask for the last one. -/
theorem C1_witness :
    (cstep initC (CEv.req 0)).isDecoding = true ∧
    (cstep initC (CEv.req 0)).inflight = some 0 ∧
    (completeOk (completeOk (applyReqs (cstep initC (CEv.req 0)) [1, 2]))).rendered
      = some 2 := by
  refine ⟨by decide, by decide, ?_⟩
  exact (C1_single_flight_coalescing.2.2 (cstep initC (CEv.req 0)) 0 [1, 2]
    (by decide) (by decide) (by decide)).2.1

/-- C2: the code contradicts the claim.  `decode()` (index.js:78-120) has
no try/catch, so when the inference call rejects, `isDecoding` is never
reset: after a failed decode the flag is still true, every later
`requestDecode()` only sets `decodePending`, and no inference call is ever
dispatched again (rendered overlay stays at its last state, here `none`),
until `resetImageState` clears the flags. -/
theorem C2_decode_failure_lockout :
    (cstep (cstep initC (CEv.req 5)) CEv.fail).isDecoding = true ∧
    (runC initC [CEv.req 5, CEv.fail, CEv.req 6, CEv.req 7]).isDecoding = true ∧
    (runC initC [CEv.req 5, CEv.fail, CEv.req 6, CEv.req 7]).inflightCount = 0 ∧
    (runC initC [CEv.req 5, CEv.fail, CEv.req 6, CEv.req 7]).rendered = none ∧
    (runC initC [CEv.req 5, CEv.fail, CEv.req 6, CEv.req 7]).decodePending = true := by
  refine ⟨rfl, rfl, rfl, rfl, rfl⟩

/-- C4: mask selection (index.js:135-143) is deterministic, returns the
index of the strictly greatest score with ties keeping the lowest index
(every earlier score is strictly below the selected one, every score is at
most the selected one), and on scores `[0.7, 0.91, 0.91]` selects index 1. -/
theorem C4_mask_selection :
    (∀ s t : List ℚ, s = t → bestIndex s = bestIndex t) ∧
    (∀ scores : List ℚ, scores ≠ [] →
      bestIndex scores < scores.length ∧
      (∀ j, j < scores.length →
        scores.getD j 0 ≤ scores.getD (bestIndex scores) 0) ∧
      (∀ j, j < bestIndex scores →
        scores.getD j 0 < scores.getD (bestIndex scores) 0)) ∧
    bestIndex [(0.7 : ℚ), 0.91, 0.91] = 1 := by
  refine ⟨fun s t hst => by rw [hst], ?_, ?_⟩
  · intro scores hne
    have hlen : 1 ≤ scores.length := by
      cases scores with
      | nil => exact absurd rfl hne
      | cons a l => simp
    obtain ⟨h1, h2, h3⟩ := bestAux scores (scores.length - 1) 1 0 (by omega)
      (fun j hj => by
        have hj0 : j = 0 := by omega
        subst hj0; exact le_refl _)
      (fun j hj => absurd hj (Nat.not_lt_zero j))
    unfold bestIndex
    exact ⟨by omega, fun j hj => h2 j (by omega), h3⟩
  · norm_num [bestIndex, selStep, List.range']

/-- C4 witness: the selection applied at the concrete score list of the
claim. -/
theorem C4_mask_selection_witness :
    bestIndex [(0.7 : ℚ), 0.91, 0.91] = bestIndex [(0.7 : ℚ), 0.91, 0.91] ∧
    ([(0.7 : ℚ), 0.91, 0.91] ≠ ([] : List ℚ)) ∧
    bestIndex [(0.7 : ℚ), 0.91, 0.91] < ([(0.7 : ℚ), 0.91, 0.91] : List ℚ).length := by
  refine ⟨C4_mask_selection.1 _ _ rfl, List.cons_ne_nil _ _, ?_⟩
  exact (C4_mask_selection.2.1 [(0.7 : ℚ), 0.91, 0.91] (List.cons_ne_nil _ _)).1

/-- C7: on export (index.js:381-408) one blob is produced; the local
download always receives it, the upload receives the identical content when
it succeeds, and an upload failure leaves the local download in place (it
already ran, unconditionally, before the guarded upload). -/
theorem C7_export_dual_sink :
    ∀ (blob : ℕ) (uploadOk : Bool),
      (cutExport blob uploadOk).localBytes = some blob ∧
      (cutExport blob true).uploadedBytes = some blob ∧
      (cutExport blob false).localBytes = some blob ∧
      (cutExport blob false).uploadedBytes = none ∧
      (cutExport blob false).statusText = "Failed to send mask to AviUtl2" := by
  intro blob uploadOk
  cases uploadOk <;> simp [cutExport]

/-- C10: every point built by `getPoint` (index.js:322-337) has both
normalized coordinates clamped into `[0,1]`, and along every event trace
from the initial state every point held in the point store is in `[0,1]²`. -/
theorem C10_point_coordinates_clamped :
    (∀ (cx cy bl bt bw bh : ℚ) (b : ℕ), ptIn01 (getPoint cx cy bl bt bw bh b)) ∧
    (∀ (evs : List AppEv) (p : Pt),
      p ∈ (runApp appInit evs).lastPoints.getD [] → ptIn01 p) := by
  constructor
  · exact getPoint_in01
  · intro evs p hp
    exact runApp_ptsInv evs appInit (by intro q hq; simp [appInit] at hq) p hp

/-- C10 witness: a click at screen coordinates outside the bounding box
(cursor at twice the box width/height) is stored clamped to `(1, 1)`. -/
theorem C10_witness :
    (⟨1, 1, 1⟩ : Pt) ∈ (runApp appInit
        [AppEv.encOk 0 0 0, AppEv.mdown 0 20 20 0 0 10 10]).lastPoints.getD [] ∧
    ptIn01 (⟨1, 1, 1⟩ : Pt) := by
  have hmem : (⟨1, 1, 1⟩ : Pt) ∈ (runApp appInit
      [AppEv.encOk 0 0 0, AppEv.mdown 0 20 20 0 0 10 10]).lastPoints.getD [] := by
    norm_num [runApp, appStep, appInit, mousedown, encodeOk, getPoint, clamp,
      min_def, max_def]
    simp
  exact ⟨hmem, C10_point_coordinates_clamped.2
    [AppEv.encOk 0 0 0, AppEv.mdown 0 20 20 0 0 10 10] ⟨1, 1, 1⟩ hmem⟩

/-- C3 counterexample: on the plain `encode` image-load path (file upload
and example image, index.js:202-220) the point session is NOT torn down:
from a session in an active multi-point session with a displayed overlay,
loading a new image leaves the point list, the multi-point mode and the
un-cleared overlay intact, even though the embedding is replaced. -/
theorem C3_counterexample :
    (encodeOk 1 1 1 cexApp3).lastPoints = some [⟨1/2, 1/2, 1⟩] ∧
    (encodeOk 1 1 1 cexApp3).lastPoints ≠ none ∧
    (encodeOk 1 1 1 cexApp3).isMultiMaskMode = true ∧
    (encodeOk 1 1 1 cexApp3).overlayCleared = false ∧
    (encodeOk 1 1 1 cexApp3).imageEmbeddings = some 1 := by
  refine ⟨rfl, by simp [encodeOk, cexApp3], rfl, rfl, rfl⟩

/-- C3 amended: every non-busy image load through `encode` replaces the
embedding and disables export but leaves the point session and the overlay
untouched; the teardown of point session and overlay holds only on the
remote-frame path `loadFromAviUtl2` (which calls `resetImageState` before
encoding) and on explicit reset. -/
theorem C3_amended_teardown :
    ∀ (u em pr : ℕ) (s : App),
      s.isEncoding = false → s.isDecoding = false →
      ((loadFromAviUtl2Ok u em pr s).lastPoints = none ∧
       (loadFromAviUtl2Ok u em pr s).isMultiMaskMode = false ∧
       (loadFromAviUtl2Ok u em pr s).overlayCleared = true ∧
       (loadFromAviUtl2Ok u em pr s).imageEmbeddings = some em ∧
       (loadFromAviUtl2Ok u em pr s).imageInput = some u ∧
       (loadFromAviUtl2Ok u em pr s).cutDisabled = true) ∧
      ((encodeOk u em pr s).imageEmbeddings = some em ∧
       (encodeOk u em pr s).cutDisabled = true ∧
       (encodeOk u em pr s).lastPoints = s.lastPoints ∧
       (encodeOk u em pr s).isMultiMaskMode = s.isMultiMaskMode ∧
       (encodeOk u em pr s).overlayCleared = s.overlayCleared) ∧
      ((resetImageState s).lastPoints = none ∧
       (resetImageState s).imageEmbeddings = none ∧
       (resetImageState s).overlayCleared = true) := by
  intro u em pr s he hd
  refine ⟨?_, ?_, ?_⟩
  · simp [loadFromAviUtl2Ok, he, hd, encodeOk, resetImageState, clearPointsAndMask]
  · simp [encodeOk, he]
  · simp [resetImageState, clearPointsAndMask]

/-- C3 amended witness: the remote-frame load applied to a concrete idle
session with an active point session tears everything down and installs
the fresh embedding. -/
theorem C3_amended_witness :
    cexApp3.isEncoding = false ∧ cexApp3.isDecoding = false ∧
    (loadFromAviUtl2Ok 4 5 6 cexApp3).lastPoints = none ∧
    (loadFromAviUtl2Ok 4 5 6 cexApp3).imageEmbeddings = some 5 := by
  refine ⟨rfl, rfl, ?_, ?_⟩
  · exact (C3_amended_teardown 4 5 6 cexApp3 rfl rfl).1.1
  · exact (C3_amended_teardown 4 5 6 cexApp3 rfl rfl).1.2.2.2.1

/-- C8 counterexample: `encode` has no try/catch, so a failing embedding
call does NOT leave the session without embedding when a prior image's
embedding exists: the stale embedding survives, and `isEncoding` stays
stuck at true. -/
theorem C8_counterexample :
    (encodeFail 2 2 cexApp8).imageEmbeddings = some 7 ∧
    (encodeFail 2 2 cexApp8).imageEmbeddings ≠ none ∧
    (encodeFail 2 2 cexApp8).isEncoding = true := by
  refine ⟨rfl, by simp [encodeFail, cexApp8], rfl⟩

/-- C8 amended: `encode` runs at most once in flight (a call while
`isEncoding` is a no-op, on both outcomes); a successful run replaces any
prior embedding; a failing run leaves the embedding field unchanged — so
only a session with no prior embedding is left without embedding — and
leaves `isEncoding` stuck true; with no embedding present both pointer
handlers refuse to start a decode. -/
theorem C8_amended_embedding_failure :
    ∀ (u em pr : ℕ) (s : App),
      (s.isEncoding = true → encodeOk u em pr s = s ∧ encodeFail u pr s = s) ∧
      (s.isEncoding = false → (encodeOk u em pr s).imageEmbeddings = some em) ∧
      (s.isEncoding = false →
        (encodeFail u pr s).imageEmbeddings = s.imageEmbeddings ∧
        (encodeFail u pr s).isEncoding = true ∧
        (s.imageEmbeddings = none → (encodeFail u pr s).imageEmbeddings = none)) ∧
      (s.imageEmbeddings = none →
        ∀ (b : ℕ) (cx cy bl bt bw bh : ℚ),
          mousedown b cx cy bl bt bw bh s = s ∧
          mousemove cx cy bl bt bw bh s = s) := by
  intro u em pr s
  refine ⟨?_, ?_, ?_, ?_⟩
  · intro he
    constructor <;> simp [encodeOk, encodeFail, he]
  · intro he
    simp [encodeOk, he]
  · intro he
    refine ⟨by simp [encodeFail, he], by simp [encodeFail, he], ?_⟩
    intro hemb
    simp [encodeFail, he, hemb]
  · intro hemb b cx cy bl bt bw bh
    constructor
    · unfold mousedown
      by_cases hb : b ≠ 0 ∧ b ≠ 2
      · rw [if_pos hb]
      · rw [if_neg hb, if_pos hemb]
    · unfold mousemove
      rw [if_pos (Or.inl hemb)]

/-- C8 amended witness: a failing first-ever embedding run on the initial
session leaves it without embedding and with the busy flag stuck. -/
theorem C8_amended_witness :
    appInit.isEncoding = false ∧ appInit.imageEmbeddings = none ∧
    (encodeFail 3 3 appInit).imageEmbeddings = none ∧
    (encodeFail 3 3 appInit).isEncoding = true ∧
    mousemove 1 1 0 0 2 2 appInit = appInit := by
  refine ⟨rfl, rfl, ?_, ?_, ?_⟩
  · exact ((C8_amended_embedding_failure 3 0 3 appInit).2.2.1 rfl).2.2 rfl
  · exact ((C8_amended_embedding_failure 3 0 3 appInit).2.2.1 rfl).2.1
  · exact ((C8_amended_embedding_failure 3 0 3 appInit).2.2.2 rfl 0 1 1 0 0 2 2).2

/-- C9 counterexample: in hover mode a `mousemove` installs one point in
the point store yet leaves the cut (export) button disabled — presence of
a point does not enable export. -/
theorem C9_counterexample :
    ((mousemove 5 5 0 0 10 10 cexApp9).lastPoints.getD []).length = 1 ∧
    (mousemove 5 5 0 0 10 10 cexApp9).cutDisabled = true := by
  constructor
  · simp [mousemove, cexApp9, appInit]
  · simp [mousemove, cexApp9, appInit]

/-- C9 amended: export enablement tracks the point-session mode, not point
presence.  A first click (embedding present, hover mode) stores one point
and enables export; a later click in multi-point mode appends a point and
leaves the button in its current state; clear and reset empty the store
and disable export; a hover replacement stores one point but leaves the
button state unchanged (disabled unless a click had enabled it). -/
theorem C9_amended_export_enablement :
    ∀ (s : App) (b : ℕ) (cx cy bl bt bw bh : ℚ),
      ((b = 0 ∨ b = 2) → s.imageEmbeddings ≠ none → s.isMultiMaskMode = false →
        (mousedown b cx cy bl bt bw bh s).cutDisabled = false ∧
        ((mousedown b cx cy bl bt bw bh s).lastPoints.getD []).length = 1) ∧
      ((b = 0 ∨ b = 2) → s.imageEmbeddings ≠ none → s.isMultiMaskMode = true →
        (mousedown b cx cy bl bt bw bh s).cutDisabled = s.cutDisabled ∧
        ((mousedown b cx cy bl bt bw bh s).lastPoints.getD []).length
          = (s.lastPoints.getD []).length + 1) ∧
      ((clearPointsAndMask s).lastPoints = none ∧
       (clearPointsAndMask s).cutDisabled = true) ∧
      ((resetImageState s).lastPoints = none ∧
       (resetImageState s).cutDisabled = true) ∧
      (s.imageEmbeddings ≠ none → s.isMultiMaskMode = false →
        ((mousemove cx cy bl bt bw bh s).lastPoints.getD []).length = 1 ∧
        (mousemove cx cy bl bt bw bh s).cutDisabled = s.cutDisabled) := by
  intro s b cx cy bl bt bw bh
  refine ⟨?_, ?_, ?_, ?_, ?_⟩
  · intro hb he hm
    have hb' : ¬(b ≠ 0 ∧ b ≠ 2) := by
      rcases hb with rfl | rfl <;> simp
    constructor <;> simp [mousedown, hb', he, hm]
  · intro hb he hm
    have hb' : ¬(b ≠ 0 ∧ b ≠ 2) := by
      rcases hb with rfl | rfl <;> simp
    constructor <;> simp [mousedown, hb', he, hm]
  · exact ⟨rfl, rfl⟩
  · exact ⟨rfl, rfl⟩
  · intro he hm
    constructor <;> simp [mousemove, he, hm]

/-- C9 amended witness: the concrete hover-mode session of the
counterexample, through a first click and through a hover move. -/
theorem C9_amended_witness :
    cexApp9.imageEmbeddings ≠ none ∧ cexApp9.isMultiMaskMode = false ∧
    (mousedown 0 5 5 0 0 10 10 cexApp9).cutDisabled = false ∧
    ((mousemove 5 5 0 0 10 10 cexApp9).lastPoints.getD []).length = 1 := by
  refine ⟨by simp [cexApp9, appInit], rfl, ?_, ?_⟩
  · exact ((C9_amended_export_enablement cexApp9 0 5 5 0 0 10 10).1
      (Or.inl rfl) (by simp [cexApp9, appInit]) rfl).1
  · exact ((C9_amended_export_enablement cexApp9 0 5 5 0 0 10 10).2.2.2.2
      (by simp [cexApp9, appInit]) rfl).1

/-- C5: overlay render (index.js:122-159).  Starting from the fresh
all-zero `createImageData` buffer, for every pixel `p` the four output
bytes at offset `4 * p` are the fixed highlight colour `(0, 114, 189)` at
full opacity 255 exactly when the chosen candidate's label at interleaved
index `numMasks * p + bestIdx` equals the inside-mask sentinel 1, and all
zero (fully transparent) otherwise; consequently an all-background mask
(every label 0) yields an all-zero, fully transparent buffer.  The render
is a pure overwrite: its result never depends on previous overlay
contents, which `createImageData` discards. -/
theorem C5_overlay_render :
    ∀ (mask : List ℕ) (numMasks w h bestIdx : ℕ),
      mask.length = numMasks * (w * h) → bestIdx < numMasks →
      (∀ p, p < w * h → ∀ k, k < 4 →
        updateMaskOverlayBuf mask numMasks w h bestIdx (4 * p + k)
          = if mask.get? (numMasks * p + bestIdx) = some 1
            then colorVal k else 0) ∧
      (colorVal 0 = 0 ∧ colorVal 1 = 114 ∧ colorVal 2 = 189 ∧ colorVal 3 = 255) ∧
      ((∀ x ∈ mask, x = 0) → ∀ a, a < 4 * (w * h) →
        updateMaskOverlayBuf mask numMasks w h bestIdx a = 0) := by
  intro mask numMasks w h bestIdx hm hb
  have main : ∀ p, p < w * h → ∀ k, k < 4 →
      updateMaskOverlayBuf mask numMasks w h bestIdx (4 * p + k)
        = if mask.get? (numMasks * p + bestIdx) = some 1
          then colorVal k else 0 := by
    intro p hp k hk
    rw [updateMaskOverlayBuf,
      overlayFold_at mask numMasks w h bestIdx hm hb p k hk (4 * (w * h)) _]
    by_cases hg : mask.get? (numMasks * p + bestIdx) = some 1
    · rw [if_pos ⟨by omega, hg⟩, if_pos hg]
    · rw [if_neg (fun hc => hg hc.2), if_neg hg]
  refine ⟨main, ⟨rfl, rfl, rfl, rfl⟩, ?_⟩
  intro h0 a ha
  obtain ⟨p, k, hk, rfl⟩ : ∃ p k, k < 4 ∧ a = 4 * p + k :=
    ⟨a / 4, a % 4, by omega, by omega⟩
  have hp : p < w * h := by omega
  have hg : ¬ mask.get? (numMasks * p + bestIdx) = some 1 := by
    intro hg
    exact absurd (h0 1 (List.get?_mem hg)) one_ne_zero
  rw [main p hp k hk, if_neg hg]

/-- C5 witness: a one-pixel, three-candidate mask whose chosen candidate
(index 1) labels the pixel inside: alpha byte is 255, red byte 0; and for
an all-background mask the whole buffer is zero. -/
theorem C5_witness :
    ([0, 1, 0] : List ℕ).length = 3 * (1 * 1) ∧ 1 < 3 ∧
    updateMaskOverlayBuf [0, 1, 0] 3 1 1 1 (4 * 0 + 3) = 255 ∧
    updateMaskOverlayBuf [0, 1, 0] 3 1 1 1 (4 * 0 + 0) = 0 ∧
    updateMaskOverlayBuf [0, 0, 0] 3 1 1 1 3 = 0 := by
  have h := C5_overlay_render [0, 1, 0] 3 1 1 1 rfl (by omega)
  have h0 := C5_overlay_render [0, 0, 0] 3 1 1 1 rfl (by omega)
  refine ⟨rfl, by omega, ?_, ?_, ?_⟩
  · have h3 := h.1 0 (by omega) 3 (by omega)
    simpa using h3
  · have h4 := h.1 0 (by omega) 0 (by omega)
    simpa using h4
  · exact h0.2.2 (by simp) 3 (by omega)

/-- C6: cut extraction (index.js:355-379).  For every pixel `p` of the
canvas, if the overlay's alpha byte at `4 * p + 3` is nonzero then the
extracted buffer holds the source image's colour bytes `3 * p + j` at
positions `4 * p + j` (`j < 3`) and keeps the overlay's alpha byte; if the
overlay alpha is zero the extracted pixel is byte-for-byte exactly what
the overlay buffer contained. -/
theorem C6_cut_extraction :
    ∀ (w h : ℕ) (overlay image : ℕ → ℕ) (p : ℕ), p < w * h →
      (0 < overlay (4 * p + 3) →
        (∀ k, k < 3 →
          cutExtract w h overlay image (4 * p + k) = image (3 * p + k)) ∧
        cutExtract w h overlay image (4 * p + 3) = overlay (4 * p + 3)) ∧
      (overlay (4 * p + 3) = 0 →
        ∀ k, k < 4 →
          cutExtract w h overlay image (4 * p + k) = overlay (4 * p + k)) := by
  intro w h overlay image p hp
  constructor
  · intro ha
    constructor
    · intro k hk
      rw [cutExtract, cutFold_at image overlay p k hk (w * h),
        if_pos ⟨hp, ha⟩]
    · rw [cutExtract]
      exact cutFold_alpha image (w * h) overlay (4 * p + 3) (by omega)
  · intro ha k hk
    by_cases hk3 : k = 3
    · subst hk3
      rw [cutExtract]
      exact cutFold_alpha image (w * h) overlay (4 * p + 3) (by omega)
    · have hk' : k < 3 := by omega
      rw [cutExtract, cutFold_at image overlay p k hk' (w * h),
        if_neg (fun hc => by omega)]

/-- C6 witness: one opaque pixel with overlay alpha 255 and source colour
`(10, 20, 30)` extracts to `(10, 20, 30, 255)`. -/
theorem C6_witness :
    (0 : ℕ) < 1 * 1 ∧ 0 < ovW (4 * 0 + 3) ∧
    cutExtract 1 1 ovW imW (4 * 0 + 0) = 10 ∧
    cutExtract 1 1 ovW imW (4 * 0 + 1) = 20 ∧
    cutExtract 1 1 ovW imW (4 * 0 + 2) = 30 ∧
    cutExtract 1 1 ovW imW (4 * 0 + 3) = 255 := by
  have h := C6_cut_extraction 1 1 ovW imW 0 (by omega)
  have halpha : (0 : ℕ) < ovW (4 * 0 + 3) := by simp [ovW]
  refine ⟨by omega, halpha, ?_, ?_, ?_, ?_⟩
  · have h1 := (h.1 halpha).1 0 (by omega)
    simpa [imW] using h1
  · have h1 := (h.1 halpha).1 1 (by omega)
    simpa [imW] using h1
  · have h1 := (h.1 halpha).1 2 (by omega)
    simpa [imW] using h1
  · have h1 := (h.1 halpha).2
    simpa [ovW] using h1

end Sam
